import Mathlib

/-!
Verification of the geometry core of `python-planar-magnetics`.

This file gives a shallow embedding, over `ℝ`, of the geometry engine of the
repository (`planar_magnetics/geometry.py`, `planar_magnetics/smoothing.py`,
`planar_magnetics/spirals.py`, `planar_magnetics/windings/spirals.py`,
`planar_magnetics/windings/single.py`) and proves or refutes the frozen claims
about it.

Modelling conventions:
* Python floats are modelled as real numbers.
* Python exceptions are modelled by an explicit error type `PyError` threaded
  through `Except`; code paths on which CPython raises (`assert` failures,
  `math.asin` domain errors, float division by zero at the division sites the
  claims depend on, attribute errors) return `Except.error`.
* `while` loops over floats that step by a fixed positive amount are embedded
  by their exact iteration count `⌈span / step⌉₊`; this agrees with the Python
  loop whenever the step is positive (for a non-positive step the Python loop
  would not terminate, and the theorems below assume a positive step where it
  matters).
* `math.isclose` is embedded with its CPython default tolerances
  (`rel_tol = 1e-9`, `abs_tol = 0.0`).
-/

namespace PlanarMagnetics

open Real

/-- CPython `math.isclose(a, b)` with default tolerances:
`abs(a-b) <= max(rel_tol * max(abs(a), abs(b)), abs_tol)` with
`rel_tol = 1e-9` and `abs_tol = 0.0`. -/
def isclose (a b : ℝ) : Prop :=
  |a - b| ≤ max ((1e-9 : ℝ) * max |a| |b|) 0

/-- Embedding of `Point` from `geometry.py` (a pair of floats). -/
structure Point where
  x : ℝ
  y : ℝ

instance : Add Point := ⟨fun p q => ⟨p.x + q.x, p.y + q.y⟩⟩

instance : Sub Point := ⟨fun p q => ⟨p.x - q.x, p.y - q.y⟩⟩

instance : Inhabited Point := ⟨⟨0, 0⟩⟩

/-- `Point.__abs__`: `math.sqrt(x ** 2 + y ** 2)`. -/
noncomputable def Point.abs (p : Point) : ℝ := Real.sqrt (p.x ^ 2 + p.y ^ 2)

/-- `Point.__eq__`: both coordinates compared with `math.isclose` (defaults). -/
def Point.eq (p q : Point) : Prop := isclose p.x q.x ∧ isclose p.y q.y

/-- `get_oriented_distance(p0, p1, p2)` from `geometry.py`: the signed distance
from `p0` to the line through `p1` and `p2`.  Lean's total real division makes
this `0` when `p1 = p2`, where CPython would raise `ZeroDivisionError`; the
call sites modelled with errors guard that case explicitly. -/
noncomputable def get_oriented_distance (p0 p1 p2 : Point) : ℝ :=
  let p21 := p2 - p1
  let p10 := p1 - p0
  (p21.x * p10.y - p21.y * p10.x) / p21.abs

/-- `get_distance(p0, p1, p2)` from `geometry.py`. -/
noncomputable def get_distance (p0 p1 p2 : Point) : ℝ :=
  |get_oriented_distance p0 p1 p2|

/-- C `atan2(y, x)` as exposed by `math.atan2`. -/
noncomputable def atan2 (y x : ℝ) : ℝ :=
  if 0 < x then Real.arctan (y / x)
  else if x < 0 then
    (if 0 ≤ y then Real.arctan (y / x) + π else Real.arctan (y / x) - π)
  else
    (if 0 < y then π / 2 else if y < 0 then -(π / 2) else 0)

noncomputable instance (a b : ℝ) : Decidable (isclose a b) := by
  unfold isclose; infer_instance

noncomputable instance (p q : Point) : Decidable (Point.eq p q) := by
  unfold Point.eq; infer_instance


/-- Python exception classes, as they can arise from the embedded code.  The
constructors `assertionError` … `indexError` model exceptions CPython actually
raises on the embedded paths.  The constructors `invalidRadiusError`,
`insufficientClearanceError` and `degenerateArcError` are the error classes
named by the specification; they are defined nowhere in the source and are
included only so that claims mentioning them can be stated. -/
inductive PyError where
  | assertionError (msg : String)
  | attributeError (msg : String)
  | valueError (msg : String)
  | zeroDivisionError
  | indexError
  | invalidRadiusError
  | insufficientClearanceError
  | degenerateArcError
deriving DecidableEq

/-- Embedding of `Arc` from `geometry.py`: the four stored dataclass fields.
The derived fields of `__post_init__` (`start`, `mid`, `end`, `bulge`) are
modelled as the functions below. -/
structure Arc where
  center : Point
  radius : ℝ
  start_angle : ℝ
  end_angle : ℝ

instance : Inhabited Arc := ⟨⟨⟨0, 0⟩, 0, 0, 0⟩⟩

/-- `point_from_polar(radius, angle)` from `geometry.py`. -/
noncomputable def point_from_polar (radius angle : ℝ) : Point :=
  ⟨radius * Real.cos angle, radius * Real.sin angle⟩

/-- Derived field `Arc.start` computed in `__post_init__`. -/
noncomputable def Arc.start (a : Arc) : Point :=
  a.center + point_from_polar a.radius a.start_angle

/-- Derived field `Arc.mid` computed in `__post_init__`. -/
noncomputable def Arc.mid (a : Arc) : Point :=
  a.center + point_from_polar a.radius ((a.start_angle + a.end_angle) / 2)

/-- Derived field `Arc.end` computed in `__post_init__` (`end` is a Lean
keyword, hence `end_pt`). -/
noncomputable def Arc.end_pt (a : Arc) : Point :=
  a.center + point_from_polar a.radius a.end_angle

/-- The attribute `bulge` as left by `Arc.__post_init__`.  `none` models "the
attribute was never assigned": on the `start == end` branch the source assigns
the misspelled attribute `buldge` instead, so `bulge` stays unset and any read
of it raises `AttributeError`. -/
noncomputable def Arc.bulge (a : Arc) : Option ℝ :=
  if Point.eq a.start a.end_pt then none
  else some (2 * get_oriented_distance a.mid a.start a.end_pt /
    (a.end_pt - a.start).abs)

/-- The misspelled attribute `buldge` as left by `Arc.__post_init__`: assigned
(the constant `2`) exactly on the `start == end` branch. -/
noncomputable def Arc.buldge (a : Arc) : Option ℝ :=
  if Point.eq a.start a.end_pt then some 2 else none

/-- `Arc.rotates_clockwise`. -/
def Arc.rotates_clockwise (a : Arc) : Prop := a.end_angle < a.start_angle

/-- `Arc.rotates_counterclockwise`. -/
def Arc.rotates_counterclockwise (a : Arc) : Prop := a.end_angle > a.start_angle

noncomputable instance (a : Arc) : Decidable a.rotates_clockwise := by
  unfold Arc.rotates_clockwise; infer_instance

noncomputable instance (a : Arc) : Decidable a.rotates_counterclockwise := by
  unfold Arc.rotates_counterclockwise; infer_instance

/-- `Arc.reverse`. -/
def Arc.reverse (a : Arc) : Arc := ⟨a.center, a.radius, a.end_angle, a.start_angle⟩

/-- `Arc.interpolate(max_angle)`.  The source walks `angle` from `start_angle`
towards `end_angle` in steps of `max_angle`, emitting a point per step, and
finally appends the exact end point.  The while loop is embedded by its
iteration count `⌈span / max_angle⌉₊`, which is exactly the number of points
the Python loop emits whenever `max_angle > 0`. -/
noncomputable def Arc.interpolate (a : Arc) (max_angle : ℝ) : List Point :=
  let steps : List Point :=
    if a.rotates_counterclockwise then
      (List.range ⌈(a.end_angle - a.start_angle) / max_angle⌉₊).map
        (fun i => a.center + ⟨a.radius * Real.cos (a.start_angle + i * max_angle),
                              a.radius * Real.sin (a.start_angle + i * max_angle)⟩)
    else
      (List.range ⌈(a.start_angle - a.end_angle) / max_angle⌉₊).map
        (fun i => a.center + ⟨a.radius * Real.cos (a.start_angle - i * max_angle),
                              a.radius * Real.sin (a.start_angle - i * max_angle)⟩)
  steps ++ [a.center + ⟨a.radius * Real.cos a.end_angle, a.radius * Real.sin a.end_angle⟩]

/-- A boundary element of a polygon: the source stores a heterogeneous list of
`Point` and `Arc` values. -/
inductive PolyElement where
  | pt (p : Point)
  | arc (a : Arc)

/-- Embedding of `Polygon` from `geometry.py` (rendering metadata carried but
inert; the `tstamp` uuid is omitted). -/
structure Polygon where
  points : List PolyElement
  layer : String := "F.Cu"
  width : ℝ := 0
  fill : String := "solid"

/-- `Polygon.to_pwl_path(max_angle)`: for each `Point` emit `(x, y)`, for each
`Arc` emit its full `interpolate` expansion, concatenated in order. -/
noncomputable def Polygon.to_pwl_path (poly : Polygon) (max_angle : ℝ) : List (ℝ × ℝ) :=
  (poly.points.map (fun el =>
    match el with
    | .arc a => (a.interpolate max_angle).map (fun p => (p.x, p.y))
    | .pt p => [(p.x, p.y)])).flatten

/-- Vertex of a "true arc polypath" as produced by `Polygon.to_poly_path`: the
source emits either an `(x, y)` pair or an `(x, y, 0, 0, bulge)` quintuple. -/
inductive PathVertex where
  | xy (x y : ℝ)
  | arcStart (x y z w bulge : ℝ)

/-- The loop body of `Polygon.to_poly_path`, carrying the `last` end point of
the previous arc.  Reading `point.bulge` on an arc whose `__post_init__` took
the misspelled-`buldge` branch raises `AttributeError`. -/
noncomputable def to_poly_path_loop : Option Point → List PolyElement → Except PyError (List PathVertex)
  | last, [] => .ok (match last with | some l => [.xy l.x l.y] | none => [])
  | last, .arc a :: rest =>
      let pre : List PathVertex :=
        match last with
        | some l => if ¬ Point.eq a.start l then [.xy l.x l.y] else []
        | none => []
      match a.bulge with
      | none => .error (.attributeError "bulge")
      | some b =>
        match to_poly_path_loop (some a.end_pt) rest with
        | .error e => .error e
        | .ok tail => .ok (pre ++ [.arcStart a.start.x a.start.y 0 0 b] ++ tail)
  | last, .pt p :: rest =>
      let pre : List PathVertex :=
        match last with
        | some l => if ¬ Point.eq p l then [.xy l.x l.y] else []
        | none => []
      match to_poly_path_loop none rest with
      | .error e => .error e
      | .ok tail => .ok (pre ++ [.xy p.x p.y] ++ tail)

/-- `Polygon.to_poly_path()`. -/
noncomputable def Polygon.to_poly_path (poly : Polygon) : Except PyError (List PathVertex) :=
  to_poly_path_loop none poly.points

/-! Embedding of `smooth_point_to_arc` from `smoothing.py`.  The local
variables of the Python function are modelled as the named functions
`spta_*` below; `smooth_point_to_arc` itself composes them, with the error
paths CPython takes (`math.isclose` early return, float division by zero,
`math.asin` domain error) made explicit. -/

/-- Local `p1 = point - arc.center`. -/
noncomputable def spta_p1 (point : Point) (arc : Arc) : Point := point - arc.center

/-- Local `p2 = arc.start - arc.center`. -/
noncomputable def spta_p2 (arc : Arc) : Point := arc.start - arc.center

/-- Local `segment_angle = atan2(p2.y - p1.y, p2.x - p1.x)`. -/
noncomputable def spta_segment_angle (point : Point) (arc : Arc) : ℝ :=
  atan2 ((spta_p2 arc).y - (spta_p1 point arc).y) ((spta_p2 arc).x - (spta_p1 point arc).x)

/-- Local `arc_angle`: the direction the arc initially points. -/
noncomputable def spta_arc_angle (arc : Arc) : ℝ :=
  if arc.rotates_clockwise then arc.start_angle - π / 2 else arc.start_angle + π / 2

/-- Local `a0 = atan2(p2.y, p2.x)`. -/
noncomputable def spta_a0 (arc : Arc) : ℝ := atan2 (spta_p2 arc).y (spta_p2 arc).x

/-- The branch condition `segment_angle > a0 + pi/2 or segment_angle < a0 - pi/2`
choosing the outside tangent-circle family (`corner_inside_arc = False`). -/
def spta_outside (point : Point) (arc : Arc) : Prop :=
  spta_segment_angle point arc > spta_a0 arc + π / 2
    ∨ spta_segment_angle point arc < spta_a0 arc - π / 2

noncomputable instance (point : Point) (arc : Arc) : Decidable (spta_outside point arc) := by
  unfold spta_outside; infer_instance

/-- Local `corner_inside_arc`. -/
def spta_inside (point : Point) (arc : Arc) : Prop := ¬ spta_outside point arc

noncomputable instance (point : Point) (arc : Arc) : Decidable (spta_inside point arc) := by
  unfold spta_inside; infer_instance

/-- Local `center_to_center`. -/
noncomputable def spta_c2c (point : Point) (arc : Arc) (radius : ℝ) : ℝ :=
  if spta_outside point arc then arc.radius + radius else arc.radius - radius

/-- Local `positive_orientation`: the source sets it `True` on the branches
`clockwise ∧ inside` and `counter-clockwise ∧ outside`, `False` otherwise. -/
def spta_positive (point : Point) (arc : Arc) : Prop :=
  (arc.rotates_clockwise ∧ spta_inside point arc)
    ∨ (¬ arc.rotates_clockwise ∧ spta_outside point arc)

noncomputable instance (point : Point) (arc : Arc) : Decidable (spta_positive point arc) := by
  unfold spta_positive; infer_instance

/-- Local `delta` (`p2 - p1` on positive orientation, `p1 - p2` otherwise). -/
noncomputable def spta_delta (point : Point) (arc : Arc) : Point :=
  if spta_positive point arc then spta_p2 arc - spta_p1 point arc
  else spta_p1 point arc - spta_p2 arc

/-- Local `R = abs(delta)`. -/
noncomputable def spta_R (point : Point) (arc : Arc) : ℝ := (spta_delta point arc).abs

/-- Local `alpha = atan2(delta.y, -delta.x)`. -/
noncomputable def spta_alpha (point : Point) (arc : Arc) : ℝ :=
  atan2 (spta_delta point arc).y (-(spta_delta point arc).x)

/-- The argument passed to `math.asin`:
`(radius * R - delta.x * p1.y + delta.y * p1.x) / center_to_center / R`. -/
noncomputable def spta_asin_arg (point : Point) (arc : Arc) (radius : ℝ) : ℝ :=
  (radius * spta_R point arc - (spta_delta point arc).x * (spta_p1 point arc).y
      + (spta_delta point arc).y * (spta_p1 point arc).x)
    / spta_c2c point arc radius / spta_R point arc

/-- Local `angle`: the angular position of the fillet center. -/
noncomputable def spta_angle (point : Point) (arc : Arc) (radius : ℝ) : ℝ :=
  if arc.rotates_clockwise then
    π - Real.arcsin (spta_asin_arg point arc radius) - spta_alpha point arc
  else
    Real.arcsin (spta_asin_arg point arc radius) - spta_alpha point arc

/-- Local `center`: the fillet center, back in global coordinates. -/
noncomputable def spta_center (point : Point) (arc : Arc) (radius : ℝ) : Point :=
  Point.mk (spta_c2c point arc radius * Real.cos (spta_angle point arc radius))
      (spta_c2c point arc radius * Real.sin (spta_angle point arc radius))
    + arc.center

/-- Local `start_angle` of the fillet (before rotation correction). -/
noncomputable def spta_start_angle (point : Point) (arc : Arc) : ℝ :=
  if spta_positive point arc then spta_segment_angle point arc + π / 2
  else spta_segment_angle point arc - π / 2

/-- Local `end_angle` of the fillet (before rotation correction). -/
noncomputable def spta_end_angle (point : Point) (arc : Arc) (radius : ℝ) : ℝ :=
  if spta_inside point arc then spta_angle point arc radius
  else if spta_angle point arc radius < 0 then spta_angle point arc radius + π
  else spta_angle point arc radius - π

/-- The final "make sure arc rotates in correct direction" block of
`smooth_point_to_arc`: conditionally shifts one of the two angles by `2*pi`
and builds the returned `Arc`. -/
noncomputable def correct_rotation (center : Point) (radius sa ea : ℝ) (pos : Prop)
    [Decidable pos] : Arc :=
  if pos then
    if ea < sa then ⟨center, radius, sa, ea⟩
    else if sa < 0 then ⟨center, radius, sa + 2 * π, ea⟩
    else ⟨center, radius, sa, ea - 2 * π⟩
  else
    if sa < ea then ⟨center, radius, sa, ea⟩
    else if 0 < sa then ⟨center, radius, sa - 2 * π, ea⟩
    else ⟨center, radius, sa, ea + 2 * π⟩

/-- `smooth_point_to_arc(point, arc, radius)` from `smoothing.py`.
`.ok none` is the source's `return None` (already-tangential case);
`.error` paths are where CPython would raise (division by a zero
`center_to_center` or `R`, or `math.asin` outside `[-1, 1]`). -/
noncomputable def smooth_point_to_arc (point : Point) (arc : Arc) (radius : ℝ) :
    Except PyError (Option Arc) :=
  if isclose (spta_segment_angle point arc) (spta_arc_angle arc) then .ok none
  else if spta_c2c point arc radius = 0 then .error .zeroDivisionError
  else if spta_R point arc = 0 then .error .zeroDivisionError
  else if 1 < |spta_asin_arg point arc radius| then .error (.valueError "math domain error")
  else .ok (some (correct_rotation (spta_center point arc radius) radius
      (spta_start_angle point arc) (spta_end_angle point arc radius)
      (spta_positive point arc)))

/-- The loop `while angle < target: angle += 2*pi`, embedded by its exact
iteration count. -/
noncomputable def windUp (a target : ℝ) : ℝ :=
  a + 2 * π * ⌈(target - a) / (2 * π)⌉₊

/-- The loop `while angle > target: angle -= 2*pi`, embedded by its exact
iteration count. -/
noncomputable def windDown (a target : ℝ) : ℝ :=
  a - 2 * π * ⌈(a - target) / (2 * π)⌉₊

/-- `round_corner(arc1, arc2, radius)` from `smoothing.py`.  When
`smooth_point_to_arc` returns `None` the source immediately calls `.reverse()`
(first half) or reads `.center` (second half) on it, raising
`AttributeError`. -/
noncomputable def round_corner (arc1 arc2 : Arc) (radius : ℝ) :
    Except PyError (List Arc) :=
  let first : Except PyError (List Arc) :=
    if isclose arc1.radius (get_distance arc1.center arc1.end_pt arc2.start) then
      .ok [arc1]
    else
      match smooth_point_to_arc arc2.start arc1.reverse radius with
      | .error e => .error e
      | .ok none => .error (.attributeError "NoneType object has no attribute reverse")
      | .ok (some c) =>
        let corner := c.reverse
        let ea := if arc1.rotates_clockwise then windDown corner.start_angle arc1.start_angle
                  else windUp corner.start_angle arc1.start_angle
        .ok [⟨arc1.center, arc1.radius, arc1.start_angle, ea⟩, corner]
  match first with
  | .error e => .error e
  | .ok arcs =>
    if isclose arc2.radius (get_distance arc2.center arc1.end_pt arc2.start) then
      .ok (arcs ++ [arc2])
    else
      match smooth_point_to_arc arc1.end_pt arc2 radius with
      | .error e => .error e
      | .ok none => .error (.attributeError "NoneType object has no attribute center")
      | .ok (some corner) =>
        let s0 := if (corner.center - arc2.center).abs < arc2.radius then corner.end_angle
                  else corner.end_angle - π
        let sa := if arc2.rotates_clockwise then windUp s0 arc2.end_angle
                  else windDown s0 arc2.end_angle
        .ok (arcs ++ [corner, ⟨arc2.center, arc2.radius, sa, arc2.end_angle⟩])

/-- `round_corner` as invoked by `smooth_polygon` on raw boundary elements:
if either element is a bare `Point`, the attribute accesses inside
`round_corner` (`.radius`, `.start`, …) raise `AttributeError`. -/
noncomputable def round_corner_el (e1 e2 : PolyElement) (radius : ℝ) :
    Except PyError (List Arc) :=
  match e1, e2 with
  | .arc a1, .arc a2 => round_corner a1 a2 radius
  | _, _ => .error (.attributeError "Point object has no Arc attributes")

/-- The `for arc in polygon.points[1:]` loop of `smooth_polygon`.  The Python
accumulator list `arcs` is carried in reverse order (head = most recently
appended element), so `arcs.pop()` is head removal. -/
noncomputable def sp_loop (radius : ℝ) :
    List PolyElement → List PolyElement → Except PyError (List PolyElement)
  | [], acc => .ok acc
  | _ :: _, [] => .error .indexError
  | el :: rest, last :: earlier =>
    match round_corner_el last el radius with
    | .error e => .error e
    | .ok news => sp_loop radius rest ((news.map .arc).reverse ++ earlier)

/-- `smooth_polygon(polygon, radius)` from `smoothing.py`: the
`assert radius > 0` guard, the corner loop, and the final wrap-around
`round_corner(arcs.pop(), arcs.pop(0), radius)`. -/
noncomputable def smooth_polygon (polygon : Polygon) (radius : ℝ) :
    Except PyError Polygon :=
  if ¬ 0 < radius then .error (.assertionError "The radius must be a positive number")
  else
    match polygon.points with
    | [] => .error .indexError
    | e0 :: rest =>
      match sp_loop radius rest [e0] with
      | .error e => .error e
      | .ok revAcc =>
        match revAcc with
        | [] => .error .indexError
        | last :: earlier =>
          match earlier.getLast? with
          | none => .error .indexError
          | some first =>
            match round_corner_el last first radius with
            | .error e => .error e
            | .ok news =>
              .ok ⟨earlier.dropLast.reverse ++ news.map .arc,
                polygon.layer, polygon.width, polygon.fill⟩

/-- `calc_trace_widths(inner_radius, outer_radius, num_turns)` from
`windings/spirals.py` (the same list comprehension appears inline in
`spirals.py::Spiral.__init__`): the geometric progression of turn radii
`(inner_radius ** (num_turns - i) * outer_radius ** i) ** (1 / num_turns)`
for `i in range(num_turns)`. -/
noncomputable def calc_trace_widths (inner_radius outer_radius : ℝ) (num_turns : ℕ) :
    List ℝ :=
  (List.range num_turns).map
    (fun i => (inner_radius ^ (num_turns - i) * outer_radius ^ i) ^ ((1 : ℝ) / num_turns))

/-- The local `min_trace_width` of `windings/spirals.py::Spiral.__init__`:
`narrow_radii[1] - narrow_radii[0] - gap if num_turns > 1 else outer_radius`,
where `narrow_radii = calc_trace_widths(inner, outer, int(num_turns) + 1)`. -/
noncomputable def spiral_min_trace_width (inner_radius outer_radius num_turns gap : ℝ) : ℝ :=
  let integer_turns := (⌊num_turns⌋).toNat
  let narrow_radii := calc_trace_widths inner_radius outer_radius (integer_turns + 1)
  if 1 < num_turns then narrow_radii.getD 1 0 - narrow_radii.getD 0 0 - gap
  else outer_radius

/-- The statements of `windings/spirals.py::Spiral.__init__` that precede all
arc construction: `assert num_turns >= 1`, the `divmod` unpacking, the
`calc_trace_widths` calls and `assert min_trace_width > 2 * radius`.  (The
source's assertion message is an f-string interpolating the computed width;
a fixed message stands in for it here.) -/
noncomputable def Spiral_init_checks (inner_radius outer_radius num_turns gap radius : ℝ) :
    Except PyError Unit :=
  if ¬ num_turns ≥ 1 then .error (.assertionError "A spiral must have at least 1 turn")
  else if ¬ spiral_min_trace_width inner_radius outer_radius num_turns gap > 2 * radius then
    .error (.assertionError "This spiral requires a min trace width which is less than 2 x radius")
  else .ok ()

/-- `windings/single.py::InnerTurn.__init__`: the assert, the two
`math.asin` gap-angle computations (with their domain errors made explicit)
and the four boundary arcs, in source order. -/
noncomputable def InnerTurn (at_ : Point)
    (inner_radius outer_radius gap rotation viastrip_angle viastrip_width : ℝ) :
    Except PyError (List Arc) :=
  if ¬ outer_radius > inner_radius then
    .error (.assertionError "outer radius must be greater than inner radius")
  else if 1 < |gap / inner_radius| then .error (.valueError "math domain error")
  else if 1 < |gap / outer_radius| then .error (.valueError "math domain error")
  else
    let inner_gap_angle := Real.arcsin (gap / inner_radius)
    let outer_gap_angle := Real.arcsin (gap / outer_radius)
    .ok [⟨at_, inner_radius,
            inner_gap_angle / 2 + rotation,
            inner_gap_angle / 2 + viastrip_angle + rotation⟩,
         ⟨at_, inner_radius + viastrip_width,
            inner_gap_angle / 2 + viastrip_angle + rotation,
            2 * π - inner_gap_angle / 2 - viastrip_angle + rotation⟩,
         ⟨at_, inner_radius,
            2 * π - inner_gap_angle / 2 - viastrip_angle + rotation,
            2 * π - inner_gap_angle / 2 + rotation⟩,
         ⟨at_, outer_radius,
            2 * π - outer_gap_angle / 2 + rotation,
            outer_gap_angle / 2 + rotation⟩]

/-- `windings/single.py::TopTurn.__init__`: gap angles, termination angle
(all via `math.asin`, domain errors explicit) and the element list
`[termination_arc, inner_arc, via_arc, outer_arc] + termination`. -/
noncomputable def TopTurn (at_ : Point)
    (inner_radius outer_radius gap termination_width viastrip_angle viastrip_width : ℝ) :
    Except PyError (List PolyElement) :=
  if 1 < |gap / inner_radius| then .error (.valueError "math domain error")
  else if 1 < |gap / outer_radius| then .error (.valueError "math domain error")
  else if 1 < |termination_width / outer_radius / 2| then
    .error (.valueError "math domain error")
  else
    let inner_gap_angle := Real.arcsin (gap / inner_radius)
    let outer_gap_angle := Real.arcsin (gap / outer_radius)
    let term_angle := Real.arcsin (termination_width / outer_radius / 2)
    .ok ([.arc ⟨at_, inner_radius, -term_angle, term_angle⟩,
          .arc ⟨at_, inner_radius + viastrip_width, term_angle,
            2 * π - term_angle - inner_gap_angle - viastrip_angle⟩,
          .arc ⟨at_, inner_radius,
            2 * π - term_angle - inner_gap_angle - viastrip_angle,
            2 * π - term_angle - inner_gap_angle⟩,
          .arc ⟨at_, outer_radius, 2 * π - term_angle - outer_gap_angle, term_angle⟩] ++
         [.pt (at_ + ⟨outer_radius + termination_width, termination_width / 2⟩),
          .pt (at_ + ⟨outer_radius + termination_width, -(termination_width / 2)⟩),
          .pt (at_ + ⟨outer_radius * Real.cos term_angle, -(termination_width / 2)⟩)])

/-- The start angle of the first arc of a winding-constructor result (used to
read the gap half-angle a constructed turn actually uses). -/
noncomputable def firstArcStart (e : Except PyError (List Arc)) : ℝ :=
  match e with
  | .ok l => (l.getD 0 default).start_angle
  | .error _ => 0

/-- Does a `smooth_point_to_arc` result hold an actual fillet arc? -/
def returnsArc : Except PyError (Option Arc) → Prop
  | .ok (some _) => True
  | _ => False

/-- Extract the fillet arc from a `smooth_point_to_arc` result. -/
noncomputable def resultArc (e : Except PyError (Option Arc)) : Arc :=
  match e with
  | .ok (some a) => a
  | _ => default

section AuxTheorems

theorem Point.add_def (p q : Point) : p + q = ⟨p.x + q.x, p.y + q.y⟩ := rfl

theorem Point.sub_def (p q : Point) : p - q = ⟨p.x - q.x, p.y - q.y⟩ := rfl

theorem sq_add_sq_pos {x y : ℝ} (h : ¬(x = 0 ∧ y = 0)) : 0 < x ^ 2 + y ^ 2 := by
  rcases not_and_or.mp h with hx | hy
  · have h1 : 0 < x ^ 2 := by positivity
    nlinarith [sq_nonneg y]
  · have h1 : 0 < y ^ 2 := by positivity
    nlinarith [sq_nonneg x]

theorem sqrt_one_add_div_sq {x : ℝ} (y : ℝ) (hx : x ≠ 0) :
    Real.sqrt (1 + (y / x) ^ 2) = Real.sqrt (x ^ 2 + y ^ 2) / |x| := by
  have h1 : 1 + (y / x) ^ 2 = (x ^ 2 + y ^ 2) / x ^ 2 := by field_simp
  rw [h1, Real.sqrt_div (by positivity), Real.sqrt_sq_eq_abs]

theorem cos_atan2 (y x : ℝ) (h : ¬(x = 0 ∧ y = 0)) :
    Real.cos (atan2 y x) = x / Real.sqrt (x ^ 2 + y ^ 2) := by
  have hs : 0 < Real.sqrt (x ^ 2 + y ^ 2) := Real.sqrt_pos.mpr (sq_add_sq_pos h)
  unfold atan2
  rcases lt_trichotomy x 0 with hx | hx | hx
  · rw [if_neg (by linarith), if_pos hx]
    have key : Real.cos (Real.arctan (y / x)) = -x / Real.sqrt (x ^ 2 + y ^ 2) := by
      rw [Real.cos_arctan, sqrt_one_add_div_sq y hx.ne, abs_of_neg hx, one_div_div]
    rcases le_or_lt 0 y with hy | hy
    · rw [if_pos hy, Real.cos_add_pi, key]; ring
    · rw [if_neg (by linarith), Real.cos_sub_pi, key]; ring
  · subst hx
    have hy : y ≠ 0 := fun h0 => h ⟨rfl, h0⟩
    rw [if_neg (lt_irrefl 0), if_neg (lt_irrefl 0)]
    rcases lt_trichotomy 0 y with hy' | hy' | hy'
    · rw [if_pos hy', Real.cos_pi_div_two, zero_div]
    · exact absurd hy'.symm hy
    · rw [if_neg (by linarith), if_pos hy', Real.cos_neg, Real.cos_pi_div_two, zero_div]
  · rw [if_pos hx, Real.cos_arctan, sqrt_one_add_div_sq y hx.ne', abs_of_pos hx,
      one_div_div]

theorem sin_atan2 (y x : ℝ) (h : ¬(x = 0 ∧ y = 0)) :
    Real.sin (atan2 y x) = y / Real.sqrt (x ^ 2 + y ^ 2) := by
  have hs : 0 < Real.sqrt (x ^ 2 + y ^ 2) := Real.sqrt_pos.mpr (sq_add_sq_pos h)
  unfold atan2
  rcases lt_trichotomy x 0 with hx | hx | hx
  · rw [if_neg (by linarith), if_pos hx]
    have key : Real.sin (Real.arctan (y / x)) = -y / Real.sqrt (x ^ 2 + y ^ 2) := by
      rw [Real.sin_arctan, sqrt_one_add_div_sq y hx.ne, abs_of_neg hx,
        div_div_eq_mul_div]
      congr 1
      field_simp
      rw [div_eq_iff hx.ne]
      ring
    rcases le_or_lt 0 y with hy | hy
    · rw [if_pos hy, Real.sin_add_pi, key]; ring
    · rw [if_neg (by linarith), Real.sin_sub_pi, key]; ring
  · subst hx
    have hy : y ≠ 0 := fun h0 => h ⟨rfl, h0⟩
    rw [if_neg (lt_irrefl 0), if_neg (lt_irrefl 0)]
    have hsy : Real.sqrt (0 ^ 2 + y ^ 2) = |y| := by
      rw [show (0:ℝ) ^ 2 + y ^ 2 = y ^ 2 by ring, Real.sqrt_sq_eq_abs]
    rcases lt_trichotomy 0 y with hy' | hy' | hy'
    · rw [if_pos hy', Real.sin_pi_div_two, hsy, abs_of_pos hy', div_self hy'.ne']
    · exact absurd hy'.symm hy
    · rw [if_neg (by linarith), if_pos hy', Real.sin_neg, Real.sin_pi_div_two, hsy,
        abs_of_neg hy']
      field_simp
  · rw [if_pos hx, Real.sin_arctan, sqrt_one_add_div_sq y hx.ne', abs_of_pos hx,
      div_div_eq_mul_div]
    congr 1
    field_simp

end AuxTheorems

theorem isclose_refl (a : ℝ) : isclose a a := by
  unfold isclose
  simp

theorem Point.abs_eq_zero {p : Point} : p.abs = 0 ↔ p.x = 0 ∧ p.y = 0 := by
  unfold Point.abs
  rw [Real.sqrt_eq_zero']
  constructor
  · intro h
    constructor <;> nlinarith [sq_nonneg p.x, sq_nonneg p.y]
  · rintro ⟨hx, hy⟩
    rw [hx, hy]
    norm_num

/-- C4: interpolating `Arc(center=(0,0), radius=10, start_angle=0,
end_angle=pi/2)` with maximum angle step `pi/2` yields exactly the two points
`(10,0)` and `(0,10)`; and for every arc and every positive maximum angle
step, the last element of `interpolate`'s output is exactly the arc's end
point. -/
theorem C4_interpolate_exact_endpoint :
    (Arc.mk ⟨0, 0⟩ 10 0 (π / 2)).interpolate (π / 2) = [⟨10, 0⟩, ⟨0, 10⟩]
    ∧ ∀ (a : Arc) (m : ℝ), 0 < m → (a.interpolate m).getLast? = some a.end_pt := by
  constructor
  · have hccw : (Arc.mk ⟨0, 0⟩ 10 0 (π / 2)).rotates_counterclockwise := by
      show (0:ℝ) < π / 2
      positivity
    have hceil : ⌈(π / 2 - 0) / (π / 2)⌉₊ = 1 := by
      rw [sub_zero, div_self (by positivity : (0:ℝ) < π / 2).ne']
      exact Nat.ceil_one
    simp only [Arc.interpolate, if_pos hccw, hceil, List.range_succ, List.range_zero,
      List.nil_append, List.map_cons,
      List.map_nil, Nat.cast_zero, zero_mul, add_zero]
    norm_num [Point.add_def, Real.cos_pi_div_two, Real.sin_pi_div_two]
  · intro a m _
    simp only [Arc.interpolate]
    rw [List.getLast?_concat]
    simp [Arc.end_pt, point_from_polar]

/-- Witness for C4: the universally quantified part applied to a concrete arc
and step. -/
theorem C4_witness :
    0 < (1 : ℝ)
    ∧ ((Arc.mk ⟨0, 0⟩ 1 0 1).interpolate 1).getLast? = some (Arc.mk ⟨0, 0⟩ 1 0 1).end_pt :=
  ⟨one_pos, C4_interpolate_exact_endpoint.2 _ 1 one_pos⟩

/-- C5 counterexample: an arc with radius `-1 <= 0` is constructed without any
error and its interpolation succeeds, returning an ordinary point list — there
is no radius validation and no `DegenerateArcError` anywhere in the source, so
the claim that interpolation "never succeeds on a non-positive radius" is
false. -/
theorem C5_counterexample :
    (Arc.mk ⟨0, 0⟩ (-1) 0 π).radius < 0
    ∧ (Arc.mk ⟨0, 0⟩ (-1) 0 π).interpolate π = [⟨-1, 0⟩, ⟨1, 0⟩] := by
  constructor
  · norm_num
  · have hccw : (Arc.mk ⟨0, 0⟩ (-1) 0 π).rotates_counterclockwise := by
      show (0:ℝ) < π
      exact Real.pi_pos
    have hceil : ⌈(π - 0) / π⌉₊ = 1 := by
      rw [sub_zero, div_self Real.pi_ne_zero]
      exact Nat.ceil_one
    simp only [Arc.interpolate, if_pos hccw, hceil, List.range_succ, List.range_zero,
      List.nil_append, List.map_cons,
      List.map_nil, Nat.cast_zero, zero_mul, add_zero]
    norm_num [Point.add_def, Real.cos_pi, Real.sin_pi]

/-- C5 (amended): `Arc` construction and `interpolate` perform no radius
validation at all: for any radius, including zero or negative ones,
interpolation succeeds, returning a nonempty list of points that ends at the
arc's end point. -/
theorem C5_no_radius_validation (a : Arc) (m : ℝ) (_h : a.radius ≤ 0) :
    a.interpolate m ≠ [] ∧ (a.interpolate m).getLast? = some a.end_pt := by
  constructor
  · simp only [Arc.interpolate]
    simp
  · simp only [Arc.interpolate]
    rw [List.getLast?_concat]
    simp [Arc.end_pt, point_from_polar]

/-- Witness for C5's amended theorem at a concrete negative-radius arc. -/
theorem C5_witness :
    (Arc.mk ⟨0, 0⟩ (-1) 0 π).radius ≤ 0
    ∧ ((Arc.mk ⟨0, 0⟩ (-1) 0 π).interpolate π ≠ []
      ∧ ((Arc.mk ⟨0, 0⟩ (-1) 0 π).interpolate π).getLast?
          = some (Arc.mk ⟨0, 0⟩ (-1) 0 π).end_pt) :=
  ⟨by norm_num, C5_no_radius_validation _ π (by norm_num)⟩

/-- C6 counterexample: two points whose coordinates differ by exactly `1`
compare equal at magnitude `1e20` but unequal at magnitude `1` — Point
equality is not governed by any fixed absolute tolerance independent of the
coordinates' magnitudes. -/
theorem C6_counterexample :
    Point.eq ⟨1e20, 0⟩ ⟨1e20 + 1, 0⟩ ∧ ¬ Point.eq ⟨0, 0⟩ ⟨1, 0⟩ := by
  constructor
  · constructor
    · unfold isclose
      have h1 : |(1e20 : ℝ) - (1e20 + 1)| = 1 := by
        rw [show (1e20 : ℝ) - (1e20 + 1) = -1 by ring]
        norm_num
      have h2 : max |(1e20 : ℝ)| |(1e20 : ℝ) + 1| = 1e20 + 1 := by
        rw [abs_of_nonneg (by norm_num), abs_of_nonneg (by norm_num)]
        exact max_eq_right (by norm_num)
      rw [h1, h2, max_eq_left (by positivity)]
      norm_num
    · exact isclose_refl 0
  · rintro ⟨hx, -⟩
    unfold isclose at hx
    have h1 : |(0 : ℝ) - 1| = 1 := by norm_num
    have h2 : max |(0 : ℝ)| |(1 : ℝ)| = 1 := by norm_num
    rw [h1, h2, mul_one, max_eq_left (by norm_num)] at hx
    norm_num at hx

/-- C6 (amended): Point equality is tolerance based, but with CPython's
default *relative* tolerance: two points compare equal exactly when each
coordinate pair differs by at most `1e-9` times the larger of the two
coordinate magnitudes. -/
theorem C6_point_eq_relative_tolerance (p q : Point) :
    Point.eq p q ↔
      (|p.x - q.x| ≤ (1e-9 : ℝ) * max |p.x| |q.x|
        ∧ |p.y - q.y| ≤ (1e-9 : ℝ) * max |p.y| |q.y|) := by
  unfold Point.eq isclose
  rw [max_eq_left (by positivity : (0:ℝ) ≤ (1e-9 : ℝ) * max |p.x| |q.x|),
    max_eq_left (by positivity : (0:ℝ) ≤ (1e-9 : ℝ) * max |p.y| |q.y|)]

theorem interp_split (a : Arc) (m : ℝ) :
    a.interpolate m = (a.interpolate m).dropLast ++ [a.end_pt] := by
  simp only [Arc.interpolate]
  rw [List.dropLast_concat]
  simp [Arc.end_pt, point_from_polar]

theorem interp_head_eq (a : Arc) (m : ℝ) (hccw : a.rotates_counterclockwise)
    (hm : 0 < m) : a.interpolate m = a.start :: (a.interpolate m).tail := by
  have hh : (a.interpolate m).head? = some a.start := by
    simp only [Arc.interpolate, if_pos hccw]
    have hn : ⌈(a.end_angle - a.start_angle) / m⌉₊ ≠ 0 := by
      refine (Nat.ceil_pos.mpr ?_).ne'
      exact div_pos (sub_pos.mpr hccw) hm
    obtain ⟨k, hk⟩ := Nat.exists_eq_succ_of_ne_zero hn
    rw [hk, List.range_succ_eq_map, List.map_cons, List.cons_append, List.head?_cons]
    simp [Arc.start, point_from_polar]
  exact (List.cons_head?_tail hh).symm

/-- C7 (amended): `to_pwl_path` concatenates every element's expansion
verbatim, so a coincidence point shared by two consecutive arcs appears twice
in the output — once as the end of the first expansion and once as the start
of the second — not once. -/
theorem C7_pwl_duplicates_shared_point (a1 a2 : Arc) (m : ℝ) (hm : 0 < m)
    (h2 : a2.rotates_counterclockwise) (hshare : a1.end_pt = a2.start) :
    ∃ l1 l3, Polygon.to_pwl_path ⟨[.arc a1, .arc a2], "F.Cu", 0, "solid"⟩ m
      = l1 ++ (a2.start.x, a2.start.y) :: (a2.start.x, a2.start.y) :: l3 := by
  have hs1 := interp_split a1 m
  have ht2 := interp_head_eq a2 m h2 hm
  refine ⟨(a1.interpolate m).dropLast.map (fun p => (p.x, p.y)),
    ((a2.interpolate m).tail).map (fun p => (p.x, p.y)), ?_⟩
  have hstep : Polygon.to_pwl_path ⟨[.arc a1, .arc a2], "F.Cu", 0, "solid"⟩ m
      = (a1.interpolate m).map (fun p => (p.x, p.y))
        ++ (a2.interpolate m).map (fun p => (p.x, p.y)) := by
    simp [Polygon.to_pwl_path]
  rw [hstep]
  conv_lhs => rw [hs1, ht2]
  rw [List.map_append, List.map_cons, hshare, List.append_assoc]
  simp

/-- C7 counterexample: two quarter arcs of the unit circle share the
coincidence point `(0,1)` (the end of the first is exactly the start of the
second), yet `to_pwl_path` emits that point twice, so it does not appear
"exactly once". -/
theorem C7_counterexample :
    (Arc.mk ⟨0, 0⟩ 1 0 (π / 2)).end_pt = (Arc.mk ⟨0, 0⟩ 1 (π / 2) π).start
    ∧ Polygon.to_pwl_path
        ⟨[.arc (Arc.mk ⟨0, 0⟩ 1 0 (π / 2)), .arc (Arc.mk ⟨0, 0⟩ 1 (π / 2) π)],
          "F.Cu", 0, "solid"⟩ (π / 2)
      = [((1 : ℝ), (0 : ℝ)), (0, 1), (0, 1), (-1, 0)] := by
  constructor
  · rfl
  · have e1 : (Arc.mk ⟨0, 0⟩ 1 0 (π / 2)).interpolate (π / 2) = [⟨1, 0⟩, ⟨0, 1⟩] := by
      have hccw : (Arc.mk ⟨0, 0⟩ 1 0 (π / 2)).rotates_counterclockwise := by
        show (0:ℝ) < π / 2
        positivity
      have hceil : ⌈(π / 2 - 0) / (π / 2)⌉₊ = 1 := by
        rw [sub_zero, div_self (by positivity : (0:ℝ) < π / 2).ne']
        exact Nat.ceil_one
      simp only [Arc.interpolate, if_pos hccw, hceil, List.range_succ, List.range_zero,
        List.nil_append, List.map_cons, List.map_nil, Nat.cast_zero, zero_mul, add_zero]
      norm_num [Point.add_def, Real.cos_pi_div_two, Real.sin_pi_div_two]
    have e2 : (Arc.mk ⟨0, 0⟩ 1 (π / 2) π).interpolate (π / 2) = [⟨0, 1⟩, ⟨-1, 0⟩] := by
      have hccw : (Arc.mk ⟨0, 0⟩ 1 (π / 2) π).rotates_counterclockwise := by
        show π / 2 < π
        linarith [Real.pi_pos]
      have hceil : ⌈(π - π / 2) / (π / 2)⌉₊ = 1 := by
        rw [show π - π / 2 = π / 2 by ring, div_self (by positivity : (0:ℝ) < π / 2).ne']
        exact Nat.ceil_one
      simp only [Arc.interpolate, if_pos hccw, hceil, List.range_succ, List.range_zero,
        List.nil_append, List.map_cons, List.map_nil, Nat.cast_zero, zero_mul, add_zero]
      norm_num [Point.add_def, Real.cos_pi_div_two, Real.sin_pi_div_two, Real.cos_pi,
        Real.sin_pi]
    simp [Polygon.to_pwl_path, e1, e2]

/-- Witness for C7's amended theorem at the two concrete quarter arcs. -/
theorem C7_witness :
    ∃ l1 l3, Polygon.to_pwl_path
        ⟨[.arc (Arc.mk ⟨0, 0⟩ 1 0 (π / 2)), .arc (Arc.mk ⟨0, 0⟩ 1 (π / 2) π)],
          "F.Cu", 0, "solid"⟩ (π / 2)
      = l1 ++ ((Arc.mk ⟨0, 0⟩ 1 (π / 2) π).start.x, (Arc.mk ⟨0, 0⟩ 1 (π / 2) π).start.y)
          :: ((Arc.mk ⟨0, 0⟩ 1 (π / 2) π).start.x, (Arc.mk ⟨0, 0⟩ 1 (π / 2) π).start.y)
          :: l3 :=
  C7_pwl_duplicates_shared_point _ _ (π / 2) (by positivity)
    (by show π / 2 < π; linarith [Real.pi_pos]) rfl

/-- C2: for `n >= 1` turns and `0 < inner_radius < outer_radius`, the `i`-th
radius computed by `calc_trace_widths` equals
`inner_radius ^ ((n-i)/n) * outer_radius ^ (i/n)`; the radii are strictly
increasing, start at exactly `inner_radius`, and stay strictly below
`outer_radius` (the spiral's outermost boundary arc is then built at
`outer_radius` itself). -/
theorem C2_spiral_radii_geometric (inner outer : ℝ) (n : ℕ) (hn : 1 ≤ n)
    (h0 : 0 < inner) (hio : inner < outer) :
    (∀ i, i < n → (calc_trace_widths inner outer n).getD i 0
        = inner ^ (((n : ℝ) - i) / n) * outer ^ ((i : ℝ) / n))
    ∧ (∀ i j, i < j → j < n →
        (calc_trace_widths inner outer n).getD i 0
          < (calc_trace_widths inner outer n).getD j 0)
    ∧ (calc_trace_widths inner outer n).getD 0 0 = inner
    ∧ (∀ i, i < n → (calc_trace_widths inner outer n).getD i 0 < outer) := by
  have hout : 0 < outer := h0.trans hio
  have hnn : 0 < n := hn
  have hn0 : (0:ℝ) < (n:ℝ) := by exact_mod_cast hnn
  have hentry : ∀ i, i < n → (calc_trace_widths inner outer n).getD i 0
      = inner ^ (((n : ℝ) - i) / n) * outer ^ ((i : ℝ) / n) := by
    intro i hi
    have hget : (calc_trace_widths inner outer n).getD i 0
        = (inner ^ (n - i) * outer ^ i) ^ ((1 : ℝ) / n) := by
      unfold calc_trace_widths
      rw [List.getD_eq_getElem?_getD]
      simp [List.getElem?_map, List.getElem?_range, hi]
    rw [hget, ← Real.rpow_natCast inner (n - i), ← Real.rpow_natCast outer i,
      Real.mul_rpow (Real.rpow_nonneg h0.le _) (Real.rpow_nonneg hout.le _),
      ← Real.rpow_mul h0.le, ← Real.rpow_mul hout.le,
      Nat.cast_sub hi.le]
    rw [mul_one_div, mul_one_div]
  have hg : ∀ i j : ℕ, i < j →
      inner ^ (((n : ℝ) - i) / n) * outer ^ ((i : ℝ) / n)
        < inner ^ (((n : ℝ) - j) / n) * outer ^ ((j : ℝ) / n) := by
    have hlt : inner ^ ((1:ℝ)/n) < outer ^ ((1:ℝ)/n) :=
      Real.rpow_lt_rpow h0.le hio (by positivity)
    have hmono : StrictMono (fun i : ℕ =>
        inner ^ (((n : ℝ) - i) / n) * outer ^ ((i : ℝ) / n)) := by
      apply strictMono_nat_of_lt_succ
      intro i
      have h1 : inner ^ (((n : ℝ) - (i + 1 : ℕ)) / n) * outer ^ (((i + 1 : ℕ) : ℝ) / n)
          = (inner ^ (((n : ℝ) - i) / n) * outer ^ ((i : ℝ) / n))
            * (outer ^ ((1:ℝ)/n) / inner ^ ((1:ℝ)/n)) := by
        rw [show ((n : ℝ) - ((i + 1 : ℕ) : ℝ)) / n = ((n:ℝ) - i)/n - 1/n by
              push_cast; ring,
            show (((i + 1 : ℕ)) : ℝ) / n = (i:ℝ)/n + 1/n by push_cast; ring,
            Real.rpow_sub h0, Real.rpow_add hout]
        ring
      have hgpos : 0 < inner ^ (((n : ℝ) - i) / n) * outer ^ ((i : ℝ) / n) := by
        positivity
      have hr : 1 < outer ^ ((1:ℝ)/n) / inner ^ ((1:ℝ)/n) :=
        (one_lt_div (Real.rpow_pos_of_pos h0 _)).mpr hlt
      show inner ^ (((n : ℝ) - i) / n) * outer ^ ((i : ℝ) / n)
          < inner ^ (((n : ℝ) - (i + 1 : ℕ)) / n) * outer ^ (((i + 1 : ℕ) : ℝ) / n)
      rw [h1]
      exact (lt_mul_iff_one_lt_right hgpos).mpr hr
    exact fun i j hij => hmono hij
  refine ⟨hentry, ?_, ?_, ?_⟩
  · intro i j hij hj
    rw [hentry i (hij.trans hj), hentry j hj]
    exact hg i j hij
  · rw [hentry 0 hnn]
    rw [Nat.cast_zero, sub_zero, div_self hn0.ne', Real.rpow_one, zero_div,
      Real.rpow_zero, mul_one]
  · intro i hi
    rw [hentry i hi]
    have hiR : (i:ℝ) < (n:ℝ) := by exact_mod_cast hi
    have he1 : 0 < ((n : ℝ) - i) / n := by
      apply div_pos _ hn0
      linarith
    calc inner ^ (((n : ℝ) - i) / n) * outer ^ ((i : ℝ) / n)
        < outer ^ (((n : ℝ) - i) / n) * outer ^ ((i : ℝ) / n) := by
          exact mul_lt_mul_of_pos_right (Real.rpow_lt_rpow h0.le hio he1)
            (Real.rpow_pos_of_pos hout _)
      _ = outer := by
          rw [← Real.rpow_add hout, div_add_div_same, sub_add_cancel,
            div_self hn0.ne', Real.rpow_one]

/-- Witness for C2 at `inner = 1`, `outer = 4`, `n = 2`. -/
theorem C2_witness :
    (calc_trace_widths 1 4 2).getD 0 0 = 1
    ∧ (calc_trace_widths 1 4 2).getD 0 0 < (calc_trace_widths 1 4 2).getD 1 0
    ∧ (calc_trace_widths 1 4 2).getD 1 0 < 4 :=
  ⟨(C2_spiral_radii_geometric 1 4 2 (by norm_num) (by norm_num) (by norm_num)).2.2.1,
   (C2_spiral_radii_geometric 1 4 2 (by norm_num) (by norm_num) (by norm_num)).2.1
      0 1 (by norm_num) (by norm_num),
   (C2_spiral_radii_geometric 1 4 2 (by norm_num) (by norm_num) (by norm_num)).2.2.2
      1 (by norm_num)⟩

theorem correct_rotation_spec (center : Point) (radius sa ea : ℝ) (pos : Prop)
    [Decidable pos] :
    (correct_rotation center radius sa ea pos).center = center
      ∧ (correct_rotation center radius sa ea pos).radius = radius := by
  unfold correct_rotation
  split_ifs <;> exact ⟨rfl, rfl⟩

theorem spta_ok_facts (p : Point) (a : Arc) (r : ℝ) (C : Arc)
    (h : smooth_point_to_arc p a r = .ok (some C)) :
    C.center = spta_center p a r ∧ C.radius = r
    ∧ spta_c2c p a r ≠ 0 ∧ spta_R p a ≠ 0
    ∧ |spta_asin_arg p a r| ≤ 1 := by
  unfold smooth_point_to_arc at h
  split_ifs at h with t1 t2 t3 t4
  any_goals simp at h
  rw [← h]
  exact ⟨(correct_rotation_spec _ _ _ _ _).1, (correct_rotation_spec _ _ _ _ _).2,
    t2, t3, not_lt.mp t4⟩

theorem cross_algebra (dx dy p1x p1y c2c r R K α θ : ℝ)
    (hR2 : R ^ 2 = dx ^ 2 + dy ^ 2) (hR : R ≠ 0) (hc2c : c2c ≠ 0)
    (hKdef : K = (r * R - dx * p1y + dy * p1x) / c2c / R)
    (hK1 : -1 ≤ K) (hK2 : K ≤ 1)
    (hcos : Real.cos α = -dx / R) (hsin : Real.sin α = dy / R)
    (hθ : θ = Real.arcsin K - α ∨ θ = π - Real.arcsin K - α) :
    dx * (c2c * Real.sin θ) - dy * (c2c * Real.cos θ)
      = -(r * R - dx * p1y + dy * p1x) := by
  have e1 : dx * (-dx / R) - dy * (dy / R) = -R := by
    field_simp
    linear_combination R * hR2
  have e2 : dx * (dy / R) + dy * (-dx / R) = 0 := by
    field_simp
    ring
  have hKN : K * c2c * R = r * R - dx * p1y + dy * p1x := by
    rw [hKdef]
    field_simp
    ring
  rcases hθ with hθ | hθ
  · rw [hθ, Real.sin_sub, Real.cos_sub, Real.sin_arcsin hK1 hK2, hcos, hsin]
    calc dx * (c2c * (K * (-dx / R) - Real.cos (Real.arcsin K) * (dy / R)))
          - dy * (c2c * (Real.cos (Real.arcsin K) * (-dx / R) + K * (dy / R)))
        = c2c * (K * (dx * (-dx / R) - dy * (dy / R))
            - Real.cos (Real.arcsin K) * (dx * (dy / R) + dy * (-dx / R))) := by ring
      _ = c2c * (K * (-R) - Real.cos (Real.arcsin K) * 0) := by rw [e1, e2]
      _ = -(K * c2c * R) := by ring
      _ = -(r * R - dx * p1y + dy * p1x) := by rw [hKN]
  · rw [hθ, show π - Real.arcsin K - α = π - (Real.arcsin K + α) by ring,
      Real.sin_pi_sub, Real.cos_pi_sub, Real.sin_add, Real.cos_add,
      Real.sin_arcsin hK1 hK2, hcos, hsin]
    calc dx * (c2c * (K * (-dx / R) + Real.cos (Real.arcsin K) * (dy / R)))
          - dy * (c2c * (-(Real.cos (Real.arcsin K) * (-dx / R) - K * (dy / R))))
        = c2c * (K * (dx * (-dx / R) - dy * (dy / R))
            + Real.cos (Real.arcsin K) * (dx * (dy / R) + dy * (-dx / R))) := by ring
      _ = c2c * (K * (-R) + Real.cos (Real.arcsin K) * 0) := by rw [e1, e2]
      _ = -(K * c2c * R) := by ring
      _ = -(r * R - dx * p1y + dy * p1x) := by rw [hKN]

theorem spta_R_sq (p : Point) (a : Arc) :
    (spta_R p a) ^ 2 = (spta_delta p a).x ^ 2 + (spta_delta p a).y ^ 2 := by
  unfold spta_R Point.abs
  exact Real.sq_sqrt (by positivity)

theorem spta_center_cross (p : Point) (a : Arc) (r : ℝ)
    (hc2c : spta_c2c p a r ≠ 0) (hR : spta_R p a ≠ 0)
    (hK : |spta_asin_arg p a r| ≤ 1) :
    (spta_delta p a).x * (spta_c2c p a r * Real.sin (spta_angle p a r))
      - (spta_delta p a).y * (spta_c2c p a r * Real.cos (spta_angle p a r))
    = -(r * spta_R p a - (spta_delta p a).x * (spta_p1 p a).y
        + (spta_delta p a).y * (spta_p1 p a).x) := by
  have hR2 := spta_R_sq p a
  have hne : ¬(-(spta_delta p a).x = 0 ∧ (spta_delta p a).y = 0) := by
    rintro ⟨h1, h2⟩
    apply hR
    unfold spta_R Point.abs
    rw [show (spta_delta p a).x = 0 by linarith, h2]
    norm_num
  have hsqrt : Real.sqrt ((-(spta_delta p a).x) ^ 2 + (spta_delta p a).y ^ 2)
      = spta_R p a := by
    rw [neg_sq]
    rfl
  have hcos : Real.cos (spta_alpha p a) = -(spta_delta p a).x / spta_R p a := by
    unfold spta_alpha
    rw [cos_atan2 _ _ hne, hsqrt]
  have hsin : Real.sin (spta_alpha p a) = (spta_delta p a).y / spta_R p a := by
    unfold spta_alpha
    rw [sin_atan2 _ _ hne, hsqrt]
  refine cross_algebra (spta_delta p a).x (spta_delta p a).y
    (spta_p1 p a).x (spta_p1 p a).y (spta_c2c p a r) r (spta_R p a)
    (spta_asin_arg p a r) (spta_alpha p a) (spta_angle p a r)
    hR2 hR hc2c rfl (abs_le.mp hK).1 (abs_le.mp hK).2 hcos hsin ?_
  unfold spta_angle
  by_cases hcw : a.rotates_clockwise
  · rw [if_pos hcw]
    right
    rfl
  · rw [if_neg hcw]
    left
    rfl

/-- C1 (amended): whenever `smooth_point_to_arc(p, B, r)` returns an arc `C`
(for `r > 0`), `C` has radius `r` and the perpendicular distance from `C`'s
center to the line through `p` and `B`'s start point equals `r` (tangency to
the segment); and the distance from `C`'s center to `B`'s center equals
`|B.radius - r|` when the code's chord-orientation test classifies the
approach as inside (the direction of travel from `p` to `B.start` within
`pi/2` of the radial direction of `B.start`), and `B.radius + r` when it
classifies it as outside.  The code's inside/outside classification is by
chord direction, not by whether `p` lies inside `B`'s circle. -/
theorem spta_center_dist (p : Point) (B : Arc) (r : ℝ) :
    (spta_center p B r - B.center).abs = |spta_c2c p B r| := by
  unfold spta_center Point.abs
  simp only [Point.add_def, Point.sub_def]
  rw [show spta_c2c p B r * Real.cos (spta_angle p B r) + B.center.x - B.center.x
        = spta_c2c p B r * Real.cos (spta_angle p B r) by ring,
      show spta_c2c p B r * Real.sin (spta_angle p B r) + B.center.y - B.center.y
        = spta_c2c p B r * Real.sin (spta_angle p B r) by ring,
      show (spta_c2c p B r * Real.cos (spta_angle p B r)) ^ 2
          + (spta_c2c p B r * Real.sin (spta_angle p B r)) ^ 2
        = spta_c2c p B r ^ 2
          * (Real.sin (spta_angle p B r) ^ 2 + Real.cos (spta_angle p B r) ^ 2) by
        ring,
      Real.sin_sq_add_cos_sq, mul_one, Real.sqrt_sq_eq_abs]

theorem C1_smooth_point_to_arc_tangency (p : Point) (B : Arc) (r : ℝ) (C : Arc)
    (hr : 0 < r) (h : smooth_point_to_arc p B r = .ok (some C)) :
    C.radius = r
    ∧ get_distance C.center p B.start = r
    ∧ (spta_inside p B → (C.center - B.center).abs = |B.radius - r|)
    ∧ (spta_outside p B → 0 ≤ B.radius → (C.center - B.center).abs = B.radius + r) := by
  obtain ⟨hcen, hrad, hc2c, hR, hK⟩ := spta_ok_facts p B r C h
  have hcross := spta_center_cross p B r hc2c hR hK
  have hdist : (C.center - B.center).abs = |spta_c2c p B r| := by
    rw [hcen]
    exact spta_center_dist p B r
  refine ⟨hrad, ?_, ?_, ?_⟩
  · by_cases hpos : spta_positive p B
    · have h21x : B.start.x - p.x = (spta_delta p B).x := by
        unfold spta_delta
        rw [if_pos hpos]
        unfold spta_p2 spta_p1
        simp [Point.sub_def]
        try ring
      have h21y : B.start.y - p.y = (spta_delta p B).y := by
        unfold spta_delta
        rw [if_pos hpos]
        unfold spta_p2 spta_p1
        simp [Point.sub_def]
        try ring
      have hnum : (B.start.x - p.x) * (p.y - C.center.y)
          - (B.start.y - p.y) * (p.x - C.center.x) = r * spta_R p B := by
        rw [h21x, h21y, hcen]
        unfold spta_center
        simp only [Point.add_def]
        rw [show (spta_p1 p B).y = p.y - B.center.y from rfl,
            show (spta_p1 p B).x = p.x - B.center.x from rfl] at hcross
        linear_combination -hcross
      simp only [get_distance, get_oriented_distance, Point.sub_def]
      rw [hnum, show Point.abs ⟨B.start.x - p.x, B.start.y - p.y⟩ = spta_R p B by
            rw [h21x, h21y]; rfl,
        mul_div_assoc, div_self hR, mul_one]
      exact abs_of_pos hr
    · have h21x : B.start.x - p.x = -(spta_delta p B).x := by
        unfold spta_delta
        rw [if_neg hpos]
        unfold spta_p2 spta_p1
        simp [Point.sub_def]
        try ring
      have h21y : B.start.y - p.y = -(spta_delta p B).y := by
        unfold spta_delta
        rw [if_neg hpos]
        unfold spta_p2 spta_p1
        simp [Point.sub_def]
        try ring
      have hnum : (B.start.x - p.x) * (p.y - C.center.y)
          - (B.start.y - p.y) * (p.x - C.center.x) = -(r * spta_R p B) := by
        rw [h21x, h21y, hcen]
        unfold spta_center
        simp only [Point.add_def]
        rw [show (spta_p1 p B).y = p.y - B.center.y from rfl,
            show (spta_p1 p B).x = p.x - B.center.x from rfl] at hcross
        linear_combination hcross
      have habs : Point.abs ⟨B.start.x - p.x, B.start.y - p.y⟩ = spta_R p B := by
        rw [h21x, h21y]
        unfold Point.abs spta_R Point.abs
        rw [show (-(spta_delta p B).x : ℝ) ^ 2 = (spta_delta p B).x ^ 2 from neg_sq _,
          show (-(spta_delta p B).y : ℝ) ^ 2 = (spta_delta p B).y ^ 2 from neg_sq _]
      simp only [get_distance, get_oriented_distance, Point.sub_def]
      rw [hnum, habs, neg_div, mul_div_assoc, div_self hR, mul_one, abs_neg]
      exact abs_of_pos hr
  · intro hin
    rw [hdist]
    unfold spta_c2c
    rw [if_neg hin]
  · intro hout hBr
    rw [hdist]
    unfold spta_c2c
    rw [if_pos hout]
    exact abs_of_nonneg (by linarith)

theorem c1_p1 : spta_p1 ⟨-10, 0⟩ (Arc.mk ⟨0, 0⟩ 1 0 (π / 2)) = ⟨-10, 0⟩ := by
  unfold spta_p1
  simp [Point.sub_def]

theorem c1_p2 : spta_p2 (Arc.mk ⟨0, 0⟩ 1 0 (π / 2)) = ⟨1, 0⟩ := by
  unfold spta_p2 Arc.start point_from_polar
  simp [Point.sub_def, Point.add_def]

theorem c1_seg : spta_segment_angle ⟨-10, 0⟩ (Arc.mk ⟨0, 0⟩ 1 0 (π / 2)) = 0 := by
  unfold spta_segment_angle
  rw [c1_p1, c1_p2]
  norm_num
  unfold atan2
  rw [if_pos (by norm_num : (0:ℝ) < 11)]
  simp [Real.arctan_zero]

theorem c1_a0 : spta_a0 (Arc.mk ⟨0, 0⟩ 1 0 (π / 2)) = 0 := by
  unfold spta_a0
  rw [c1_p2]
  show atan2 0 1 = 0
  unfold atan2
  rw [if_pos (by norm_num : (0:ℝ) < 1)]
  simp [Real.arctan_zero]

theorem c1_not_outside : ¬ spta_outside ⟨-10, 0⟩ (Arc.mk ⟨0, 0⟩ 1 0 (π / 2)) := by
  unfold spta_outside
  rw [c1_seg, c1_a0]
  rintro (h | h) <;> nlinarith [Real.pi_pos]

theorem c1_not_cw : ¬ (Arc.mk ⟨0, 0⟩ 1 0 (π / 2)).rotates_clockwise := by
  unfold Arc.rotates_clockwise
  simp only
  nlinarith [Real.pi_pos]

theorem c1_not_tangent :
    ¬ isclose (spta_segment_angle ⟨-10, 0⟩ (Arc.mk ⟨0, 0⟩ 1 0 (π / 2)))
      (spta_arc_angle (Arc.mk ⟨0, 0⟩ 1 0 (π / 2))) := by
  have harc : spta_arc_angle (Arc.mk ⟨0, 0⟩ 1 0 (π / 2)) = π / 2 := by
    unfold spta_arc_angle
    rw [if_neg c1_not_cw]
    norm_num
  rw [c1_seg, harc]
  unfold isclose
  have hpi2 : (0:ℝ) < π / 2 := by positivity
  rw [show |(0:ℝ) - π / 2| = π / 2 by rw [zero_sub, abs_neg, abs_of_pos hpi2],
    show |(0:ℝ)| = 0 by norm_num,
    show max (0:ℝ) |π / 2| = π / 2 by rw [abs_of_pos hpi2]; exact max_eq_right hpi2.le,
    max_eq_left (by positivity)]
  intro hcon
  nlinarith

theorem c1_c2c : spta_c2c ⟨-10, 0⟩ (Arc.mk ⟨0, 0⟩ 1 0 (π / 2)) (1 / 4) = 3 / 4 := by
  unfold spta_c2c
  rw [if_neg c1_not_outside]
  norm_num

theorem c1_not_pos : ¬ spta_positive ⟨-10, 0⟩ (Arc.mk ⟨0, 0⟩ 1 0 (π / 2)) := by
  unfold spta_positive
  rintro (⟨h, -⟩ | ⟨-, h⟩)
  · exact c1_not_cw h
  · exact c1_not_outside h

theorem c1_delta : spta_delta ⟨-10, 0⟩ (Arc.mk ⟨0, 0⟩ 1 0 (π / 2)) = ⟨-11, 0⟩ := by
  unfold spta_delta
  rw [if_neg c1_not_pos, c1_p1, c1_p2]
  simp [Point.sub_def]
  norm_num

theorem c1_R : spta_R ⟨-10, 0⟩ (Arc.mk ⟨0, 0⟩ 1 0 (π / 2)) = 11 := by
  unfold spta_R
  rw [c1_delta]
  unfold Point.abs
  rw [show ((-11:ℝ) ^ 2 + (0:ℝ) ^ 2) = 11 ^ 2 by norm_num]
  exact Real.sqrt_sq (by norm_num)

theorem c1_asin_arg :
    spta_asin_arg ⟨-10, 0⟩ (Arc.mk ⟨0, 0⟩ 1 0 (π / 2)) (1 / 4) = 1 / 3 := by
  unfold spta_asin_arg
  rw [c1_delta, c1_R, c1_c2c, c1_p1]
  norm_num

theorem c1_eval :
    smooth_point_to_arc ⟨-10, 0⟩ (Arc.mk ⟨0, 0⟩ 1 0 (π / 2)) (1 / 4)
      = .ok (some (correct_rotation
          (spta_center ⟨-10, 0⟩ (Arc.mk ⟨0, 0⟩ 1 0 (π / 2)) (1 / 4)) (1 / 4)
          (spta_start_angle ⟨-10, 0⟩ (Arc.mk ⟨0, 0⟩ 1 0 (π / 2)))
          (spta_end_angle ⟨-10, 0⟩ (Arc.mk ⟨0, 0⟩ 1 0 (π / 2)) (1 / 4))
          (spta_positive ⟨-10, 0⟩ (Arc.mk ⟨0, 0⟩ 1 0 (π / 2))))) := by
  unfold smooth_point_to_arc
  rw [if_neg c1_not_tangent, if_neg (by rw [c1_c2c]; norm_num),
    if_neg (by rw [c1_R]; norm_num),
    if_neg (by rw [c1_asin_arg]; norm_num [abs_le])]

/-- C1 counterexample: `p = (-10, 0)` lies strictly outside the circle of
`B = Arc((0,0), 1, 0, pi/2)` (distance 10 > radius 1), `smooth_point_to_arc`
returns a fillet arc for `r = 1/4`, yet the distance from the fillet's center
to `B`'s center is `3/4 = B.radius - r`, not `B.radius + r = 5/4` as the
claim requires for an outside point: the code classifies inside/outside by
chord direction, not by the point's position relative to the circle. -/
theorem C1_counterexample :
    (⟨-10, 0⟩ - (Arc.mk ⟨0, 0⟩ 1 0 (π / 2)).center : Point).abs
        > (Arc.mk ⟨0, 0⟩ 1 0 (π / 2)).radius
    ∧ returnsArc (smooth_point_to_arc ⟨-10, 0⟩ (Arc.mk ⟨0, 0⟩ 1 0 (π / 2)) (1 / 4))
    ∧ ((resultArc (smooth_point_to_arc ⟨-10, 0⟩ (Arc.mk ⟨0, 0⟩ 1 0 (π / 2)) (1 / 4))).center
        - (Arc.mk ⟨0, 0⟩ 1 0 (π / 2)).center).abs = 3 / 4
    ∧ (3 / 4 : ℝ) ≠ (Arc.mk ⟨0, 0⟩ 1 0 (π / 2)).radius + 1 / 4 := by
  refine ⟨?_, ?_, ?_, by norm_num⟩
  · show (⟨-10, 0⟩ - (⟨0, 0⟩ : Point) : Point).abs > 1
    unfold Point.abs
    simp only [Point.sub_def]
    rw [show ((-10:ℝ) - 0) ^ 2 + ((0:ℝ) - 0) ^ 2 = 10 ^ 2 by norm_num,
      Real.sqrt_sq (by norm_num)]
    norm_num
  · rw [c1_eval]
    trivial
  · rw [c1_eval]
    show ((correct_rotation _ _ _ _ _).center - _).abs = 3 / 4
    rw [(correct_rotation_spec _ _ _ _ _).1, spta_center_dist, c1_c2c]
    norm_num

/-- Witness for C1's amended theorem at the same concrete input. -/
theorem C1_witness :
    0 < (1 / 4 : ℝ)
    ∧ get_distance
        (resultArc (smooth_point_to_arc ⟨-10, 0⟩ (Arc.mk ⟨0, 0⟩ 1 0 (π / 2)) (1 / 4))).center
        ⟨-10, 0⟩ (Arc.mk ⟨0, 0⟩ 1 0 (π / 2)).start = 1 / 4
    ∧ ((resultArc (smooth_point_to_arc ⟨-10, 0⟩ (Arc.mk ⟨0, 0⟩ 1 0 (π / 2)) (1 / 4))).center
        - (Arc.mk ⟨0, 0⟩ 1 0 (π / 2)).center).abs
        = |(Arc.mk ⟨0, 0⟩ 1 0 (π / 2)).radius - 1 / 4| := by
  have hres := C1_smooth_point_to_arc_tangency ⟨-10, 0⟩ (Arc.mk ⟨0, 0⟩ 1 0 (π / 2))
    (1 / 4) _ (by norm_num) c1_eval
  refine ⟨by norm_num, ?_, ?_⟩
  · rw [c1_eval]
    exact hres.2.1
  · rw [c1_eval]
    exact hres.2.2.1 c1_not_outside

theorem spta_no_assert (p : Point) (a : Arc) (r : ℝ) (m : String) :
    smooth_point_to_arc p a r ≠ .error (.assertionError m) := by
  unfold smooth_point_to_arc
  split_ifs <;> simp

theorem round_corner_no_assert (a1 a2 : Arc) (r : ℝ) (m : String) :
    round_corner a1 a2 r ≠ .error (.assertionError m) := by
  intro h
  unfold round_corner at h
  by_cases h1 : isclose a1.radius (get_distance a1.center a1.end_pt a2.start)
  · by_cases h2' : isclose a2.radius (get_distance a2.center a1.end_pt a2.start)
    · simp [h1, h2'] at h
    · rcases hs : smooth_point_to_arc a1.end_pt a2 r with e | o
      · simp [h1, h2', hs] at h
        exact spta_no_assert a1.end_pt a2 r m (hs.trans (by rw [h]))
      · cases o <;> simp [h1, h2', hs] at h
  · rcases hs1 : smooth_point_to_arc a2.start a1.reverse r with e | o
    · simp [h1, hs1] at h
      exact spta_no_assert a2.start a1.reverse r m (hs1.trans (by rw [h]))
    · cases o with
      | none => simp [h1, hs1] at h
      | some c =>
        by_cases h2' : isclose a2.radius (get_distance a2.center a1.end_pt a2.start)
        · simp [h1, hs1, h2'] at h
        · rcases hs : smooth_point_to_arc a1.end_pt a2 r with e | o2
          · simp [h1, hs1, h2', hs] at h
            exact spta_no_assert a1.end_pt a2 r m (hs.trans (by rw [h]))
          · cases o2 <;> simp [h1, hs1, h2', hs] at h

theorem round_corner_el_no_assert (e1 e2 : PolyElement) (r : ℝ) (m : String) :
    round_corner_el e1 e2 r ≠ .error (.assertionError m) := by
  cases e1 <;> cases e2 <;> simp [round_corner_el]
  exact round_corner_no_assert _ _ r m

theorem sp_loop_no_assert (r : ℝ) (rest : List PolyElement) :
    ∀ (acc : List PolyElement) (m : String),
      sp_loop r rest acc ≠ .error (.assertionError m) := by
  induction rest with
  | nil =>
    intro acc m h
    simp [sp_loop] at h
  | cons el rest ih =>
    intro acc m h
    cases acc with
    | nil => simp [sp_loop] at h
    | cons last earlier =>
      rw [sp_loop] at h
      rcases hrc : round_corner_el last el r with e | news
      · rw [hrc] at h
        simp at h
        exact round_corner_el_no_assert last el r m (by rw [hrc, h])
      · rw [hrc] at h
        exact ih _ m h

/-- C3 (amended): `smooth_polygon` validates its radius with a bare
`assert radius > 0`: for `radius <= 0` it fails with `AssertionError` (there
is no `InvalidRadiusError` anywhere in the source), and for `radius > 0` the
assertion passes and no `AssertionError` can be raised by the rest of the
smoothing engine (later geometric failures surface as other exception
types). -/
theorem C3_smooth_polygon_assert (polygon : Polygon) (r : ℝ) :
    (r ≤ 0 → smooth_polygon polygon r
        = .error (.assertionError "The radius must be a positive number"))
    ∧ (0 < r → ∀ m, smooth_polygon polygon r ≠ .error (.assertionError m)) := by
  constructor
  · intro hr
    unfold smooth_polygon
    rw [if_pos (not_lt.mpr hr)]
  · intro hr m h
    unfold smooth_polygon at h
    rw [if_neg (not_not.mpr hr)] at h
    rcases hp : polygon.points with _ | ⟨e0, rest⟩
    · rw [hp] at h
      simp at h
    · rw [hp] at h
      rcases hsp : sp_loop r rest [e0] with e | revAcc
      · simp only [hsp] at h
        simp at h
        exact sp_loop_no_assert r rest [e0] m (by rw [hsp, h])
      · simp only [hsp] at h
        cases revAcc with
        | nil => simp at h
        | cons last earlier =>
          rcases hgl : earlier.getLast? with _ | first
          · simp only [hgl] at h
            simp at h
          · simp only [hgl] at h
            rcases hrc : round_corner_el last first r with e | news
            · simp only [hrc] at h
              simp at h
              exact round_corner_el_no_assert last first r m (by rw [hrc, h])
            · simp only [hrc] at h
              simp at h

/-- C3 counterexample: for radius `0 <= 0`, `smooth_polygon` raises
`AssertionError` — not the `InvalidRadiusError` the claim names (no such
class exists in the source). -/
theorem C3_counterexample :
    smooth_polygon ⟨[], "F.Cu", 0, "solid"⟩ 0
      = .error (.assertionError "The radius must be a positive number")
    ∧ PyError.assertionError "The radius must be a positive number"
      ≠ PyError.invalidRadiusError := by
  constructor
  · unfold smooth_polygon
    rw [if_pos (by norm_num)]
  · simp

/-- Witness for C3's amended theorem at radius `0` on the empty polygon. -/
theorem C3_witness :
    (0:ℝ) ≤ 0
    ∧ smooth_polygon ⟨[], "F.Cu", 0, "solid"⟩ 0
        = .error (.assertionError "The radius must be a positive number") :=
  ⟨le_refl 0, (C3_smooth_polygon_assert ⟨[], "F.Cu", 0, "solid"⟩ 0).1 (le_refl 0)⟩

theorem arcsin_half : Real.arcsin (1 / 2) = π / 6 := by
  rw [show (1 / 2 : ℝ) = Real.sin (π / 6) from Real.sin_pi_div_six.symm]
  exact Real.arcsin_sin (by linarith [Real.pi_pos]) (by linarith [Real.pi_pos])

/-- C8 (amended): the winding synthesizers compute the gap angle at radius `r`
as `asin(gap / r)` — not `asin(gap / 2 / r)` — separately at the inner and
outer radii; `InnerTurn` then uses half of that, `asin(gap / r) / 2`, on each
side of the gap, while `TopTurn` applies the full `asin(gap / r)` on one side
of its (asymmetric) gap. -/
theorem C8_gap_angles (at_ : Point) (inner outer gap rotation va vw : ℝ)
    (l : List Arc) (h : InnerTurn at_ inner outer gap rotation va vw = .ok l) :
    (l.getD 0 default).start_angle = Real.arcsin (gap / inner) / 2 + rotation
    ∧ (l.getD 3 default).start_angle
        = 2 * π - Real.arcsin (gap / outer) / 2 + rotation
    ∧ (l.getD 3 default).end_angle = Real.arcsin (gap / outer) / 2 + rotation
    ∧ ∀ (tw : ℝ) (l2 : List PolyElement),
        TopTurn at_ inner outer gap tw va vw = .ok l2 →
        ∃ oa : Arc, l2.getD 3 (.pt ⟨0, 0⟩) = .arc oa
          ∧ oa.start_angle
              = 2 * π - Real.arcsin (tw / outer / 2) - Real.arcsin (gap / outer) := by
  unfold InnerTurn at h
  split_ifs at h
  all_goals simp at h
  subst h
  refine ⟨by simp, by simp [List.getD_cons_succ, List.getD_cons_zero],
    by simp [List.getD_cons_succ, List.getD_cons_zero], ?_⟩
  intro tw l2 h2'
  unfold TopTurn at h2'
  split_ifs at h2'
  all_goals simp at h2'
  subst h2'
  refine ⟨⟨at_, outer, 2 * π - Real.arcsin (tw / outer / 2) - Real.arcsin (gap / outer),
    Real.arcsin (tw / outer / 2)⟩, ?_, rfl⟩
  simp [List.getD_cons_succ, List.getD_cons_zero]

theorem innerTurn_concrete :
    InnerTurn ⟨0, 0⟩ 1 2 1 0 1 1
      = .ok [⟨⟨0, 0⟩, 1, Real.arcsin (1 / 1) / 2 + 0,
               Real.arcsin (1 / 1) / 2 + 1 + 0⟩,
             ⟨⟨0, 0⟩, 1 + 1, Real.arcsin (1 / 1) / 2 + 1 + 0,
               2 * π - Real.arcsin (1 / 1) / 2 - 1 + 0⟩,
             ⟨⟨0, 0⟩, 1, 2 * π - Real.arcsin (1 / 1) / 2 - 1 + 0,
               2 * π - Real.arcsin (1 / 1) / 2 + 0⟩,
             ⟨⟨0, 0⟩, 2, 2 * π - Real.arcsin (1 / 2) / 2 + 0,
               Real.arcsin (1 / 2) / 2 + 0⟩] := by
  unfold InnerTurn
  rw [if_neg (by norm_num), if_neg (by norm_num [abs_le]), if_neg (by norm_num [abs_le])]

/-- C8 counterexample: for `gap = 1` at `inner_radius = 1`, the half-angle the
code actually uses is `asin(1/1)/2 = pi/4`, while the claimed formula gives
`asin(1/2/1) = pi/6`; the two differ. -/
theorem C8_counterexample :
    firstArcStart (InnerTurn ⟨0, 0⟩ 1 2 1 0 1 1) = π / 4
    ∧ Real.arcsin (1 / 2 / 1) = π / 6
    ∧ (π / 4 : ℝ) ≠ π / 6 := by
  refine ⟨?_, ?_, ?_⟩
  · rw [innerTurn_concrete]
    simp [firstArcStart, Real.arcsin_one]
    ring
  · rw [show (1 / 2 / 1 : ℝ) = 1 / 2 by norm_num]
    exact arcsin_half
  · have : π / 6 < π / 4 := by linarith [Real.pi_pos]
    exact this.ne'

/-- Witness for C8's amended theorem at a concrete inner turn. -/
theorem C8_witness :
    firstArcStart (InnerTurn ⟨0, 0⟩ 1 2 1 0 1 1) = Real.arcsin ((1:ℝ) / 1) / 2 + 0 := by
  have h := (C8_gap_angles ⟨0, 0⟩ 1 2 1 0 1 1 _ innerTurn_concrete).1
  rw [innerTurn_concrete]
  simp only [firstArcStart]
  exact h

theorem spiral_mtw_concrete : spiral_min_trace_width 1 2 2 0 ≤ 20 := by
  unfold spiral_min_trace_width
  have h0 : ⌊(2:ℝ)⌋ = 2 := by norm_num
  have hfloor : (⌊(2:ℝ)⌋).toNat = 2 := by rw [h0]; rfl
  rw [hfloor, if_pos (by norm_num : (1:ℝ) < 2)]
  have hval : calc_trace_widths 1 2 (2 + 1)
      = [(1 ^ 3 * 2 ^ 0 : ℝ) ^ ((1:ℝ)/3), (1 ^ 2 * 2 ^ 1 : ℝ) ^ ((1:ℝ)/3),
         (1 ^ 1 * 2 ^ 2 : ℝ) ^ ((1:ℝ)/3)] := by
    simp [calc_trace_widths, List.range_succ]
  rw [hval]
  have h1 : ((1 ^ 3 * 2 ^ 0 : ℝ)) ^ ((1:ℝ)/3) = 1 := by
    norm_num
  have h2 : ((1 ^ 2 * 2 ^ 1 : ℝ)) ^ ((1:ℝ)/3) ≤ 2 := by
    rw [show ((1:ℝ) ^ 2 * 2 ^ 1) = 2 by norm_num]
    calc (2:ℝ) ^ ((1:ℝ)/3) ≤ 2 ^ (1:ℝ) :=
          Real.rpow_le_rpow_of_exponent_le (by norm_num) (by norm_num)
      _ = 2 := Real.rpow_one 2
  simp only [List.getD]
  simp [h1]
  linarith

/-- C9 (amended): when the minimum resulting trace width does not exceed
twice the requested fillet radius, `windings/spirals.py::Spiral.__init__`
fails with an `AssertionError` from the `assert min_trace_width > 2 * radius`
statement — not with any `InsufficientClearanceError`, a class that exists
nowhere in the source.  The assert is placed before any arc construction, so
the embedded check function (which covers exactly the statements preceding
geometry construction) already returns the error. -/
theorem C9_insufficient_clearance_assert (inner outer nt gap r : ℝ)
    (h1 : 1 ≤ nt) (h2 : spiral_min_trace_width inner outer nt gap ≤ 2 * r) :
    Spiral_init_checks inner outer nt gap r
      = .error (.assertionError
          "This spiral requires a min trace width which is less than 2 x radius") := by
  unfold Spiral_init_checks
  rw [if_neg (not_not.mpr h1), if_pos (not_lt.mpr h2)]

/-- C9 counterexample: a concrete spiral request violating the clearance
precondition fails with `AssertionError`, which is not the
`InsufficientClearanceError` the claim names. -/
theorem C9_counterexample :
    Spiral_init_checks 1 2 2 0 10
      = .error (.assertionError
          "This spiral requires a min trace width which is less than 2 x radius")
    ∧ PyError.assertionError
        "This spiral requires a min trace width which is less than 2 x radius"
      ≠ PyError.insufficientClearanceError := by
  constructor
  · unfold Spiral_init_checks
    rw [if_neg (not_not.mpr (by norm_num : (1:ℝ) ≤ 2)),
      if_pos (not_lt.mpr (le_trans spiral_mtw_concrete (by norm_num)))]
  · simp

/-- Witness for C9's amended theorem at the same concrete request. -/
theorem C9_witness :
    (1:ℝ) ≤ 2
    ∧ spiral_min_trace_width 1 2 2 0 ≤ 2 * 10
    ∧ Spiral_init_checks 1 2 2 0 10
        = .error (.assertionError
            "This spiral requires a min trace width which is less than 2 x radius") :=
  ⟨by norm_num, le_trans spiral_mtw_concrete (by norm_num),
   C9_insufficient_clearance_assert 1 2 2 0 10 (by norm_num)
     (le_trans spiral_mtw_concrete (by norm_num))⟩

/-- C10: when an arc's start and end points coincide within tolerance,
`__post_init__` assigns only the misspelled `buldge` attribute and leaves
`bulge` unset, so `Polygon.to_poly_path` on a polygon containing such an arc
fails with an `AttributeError`; for every other arc `bulge` is set and
satisfies `bulge * chord_length = 2 * sagitta`. -/
theorem C10_buldge_misspelling (a : Arc) :
    (Point.eq a.start a.end_pt →
      a.bulge = none ∧ a.buldge = some 2
        ∧ Polygon.to_poly_path ⟨[.arc a], "F.Cu", 0, "solid"⟩
            = .error (.attributeError "bulge"))
    ∧ (¬ Point.eq a.start a.end_pt →
      a.bulge ≠ none
        ∧ ∀ b, a.bulge = some b →
            b * (a.end_pt - a.start).abs
              = 2 * get_oriented_distance a.mid a.start a.end_pt) := by
  constructor
  · intro h
    have hb : a.bulge = none := by unfold Arc.bulge; rw [if_pos h]
    refine ⟨hb, ?_, ?_⟩
    · unfold Arc.buldge; rw [if_pos h]
    · simp [Polygon.to_poly_path, to_poly_path_loop, hb]
  · intro h
    have hb : a.bulge = some (2 * get_oriented_distance a.mid a.start a.end_pt /
        (a.end_pt - a.start).abs) := by
      unfold Arc.bulge; rw [if_neg h]
    have hw : (a.end_pt - a.start).abs ≠ 0 := by
      intro h0
      apply h
      have hx : a.end_pt.x - a.start.x = 0 := by
        simpa [Point.sub_def] using (Point.abs_eq_zero.mp h0).1
      have hy : a.end_pt.y - a.start.y = 0 := by
        simpa [Point.sub_def] using (Point.abs_eq_zero.mp h0).2
      have hx' : a.end_pt.x = a.start.x := by linarith
      have hy' : a.end_pt.y = a.start.y := by linarith
      exact ⟨by rw [hx']; exact isclose_refl _, by rw [hy']; exact isclose_refl _⟩
    refine ⟨by rw [hb]; simp, ?_⟩
    intro b hbb
    rw [hb] at hbb
    have : b = 2 * get_oriented_distance a.mid a.start a.end_pt /
        (a.end_pt - a.start).abs := by
      exact (Option.some.injEq _ _ ▸ hbb).symm
    rw [this, div_mul_cancel₀ _ hw]

/-- Witness for C10: the full-turn arc `Arc((0,0), 1, 0, 2*pi)` has coincident
start and end, gets only the misspelled attribute, and makes
`to_poly_path` fail. -/
theorem C10_witness :
    Point.eq (Arc.mk ⟨0, 0⟩ 1 0 (2 * π)).start (Arc.mk ⟨0, 0⟩ 1 0 (2 * π)).end_pt
    ∧ ((Arc.mk ⟨0, 0⟩ 1 0 (2 * π)).bulge = none
      ∧ (Arc.mk ⟨0, 0⟩ 1 0 (2 * π)).buldge = some 2
      ∧ Polygon.to_poly_path ⟨[.arc (Arc.mk ⟨0, 0⟩ 1 0 (2 * π))], "F.Cu", 0, "solid"⟩
          = .error (.attributeError "bulge")) := by
  have hs : (Arc.mk ⟨0, 0⟩ 1 0 (2 * π)).start = ⟨1, 0⟩ := by
    simp [Arc.start, point_from_polar, Point.add_def]
  have he : (Arc.mk ⟨0, 0⟩ 1 0 (2 * π)).end_pt = ⟨1, 0⟩ := by
    simp [Arc.end_pt, point_from_polar, Point.add_def, Real.cos_two_pi, Real.sin_two_pi]
  have heq : Point.eq (Arc.mk ⟨0, 0⟩ 1 0 (2 * π)).start (Arc.mk ⟨0, 0⟩ 1 0 (2 * π)).end_pt := by
    rw [hs, he]
    exact ⟨isclose_refl _, isclose_refl _⟩
  exact ⟨heq, (C10_buldge_misspelling _).1 heq⟩

end PlanarMagnetics
